import Mathlib

/-!
Verification of the microlensing simulator core (src/main.py).

The model operates in normalized Einstein-radius units. We embed the
numeric computations over the mathematical reals: Python float
expressions become the corresponding real-valued expressions, with
numpy sqrt, cos and sin becoming Real.sqrt, Real.cos and Real.sin.
Python integer true-division raises ZeroDivisionError when the divisor
is zero; that one fallible operation is modelled explicitly in the
per-frame step, which returns an Option.

The driving loop follows the behavior of matplotlib during ani.save:
since FuncAnimation is given no init_func, the initial draw invokes the
update callback once on the first frame of the frame sequence, and the
writer then iterates the callback over all frames in order; each
invocation appends one sample to the light-curve lists.
-/

noncomputable section

/-- Einstein radius unit, src/main.py line 10: RE = 1.0. -/
def RE : ℝ := 1.0

/-- Closed-form single-lens magnification formula, the return expression of
calculate_magnification (src/main.py line 21). -/
def magFormula (u : ℝ) : ℝ := (u ^ 2 + 2) / (u * Real.sqrt (u ^ 2 + 4))

/-- The reassignment on src/main.py lines 19-20: if u < 0.01 the impact
parameter is floored at 0.01 before the formula is evaluated. -/
def effective_u (u : ℝ) : ℝ := if u < 0.01 then 0.01 else u

/-- calculate_magnification, src/main.py lines 13-21: floor the impact
parameter at 0.01, then evaluate the single-lens magnification formula. -/
def calculate_magnification (u : ℝ) : ℝ := magFormula (effective_u u)

/-- Perturbation contribution of the companion, src/main.py lines 100-109:
zero outside the influence radius, otherwise a quadratic falloff
  peak_contribution * (1 - (separation_to_source / influence_radius)^2)
clamped below at 0.0. -/
def perturbation (separation_to_source influence_radius peak_contribution : ℝ) : ℝ :=
  if separation_to_source < influence_radius then
    max 0.0 (peak_contribution * (1 - (separation_to_source / influence_radius) ^ 2))
  else 0.0

/-- Influence radius of the companion, src/main.py line 94: half the Einstein radius. -/
def planet_event_radius : ℝ := 0.5 * RE

/-- Peak additional magnification of the companion, src/main.py line 98. -/
def max_planet_magnification_contribution : ℝ := 1.0

/-- Lens x position at a frame, src/main.py line 74:
  -sim_duration_units / 2 + (frame / (sim_total_frames - 1)) * sim_duration_units.
Arguments: N = sim_total_frames, S = sim_duration_units, k = frame. -/
def lens_x_current (N : ℕ) (S : ℝ) (k : ℕ) : ℝ :=
  -S / 2 + ((k : ℝ) / ((N : ℝ) - 1)) * S

/-- Companion (planet) position at a frame, src/main.py lines 81-86: polar
offset of radius r = planet_distance_re at angle frame * planet_orbit_speed,
added to the lens position (whose y coordinate is 0). -/
def planet_display (N : ℕ) (S r ω : ℝ) (k : ℕ) : ℝ × ℝ :=
  (lens_x_current N S k + r * Real.cos ((k : ℝ) * ω),
   r * Real.sin ((k : ℝ) * ω))

/-- Total magnification computed by one call of update, src/main.py
lines 74-112: base single-lens magnification at the lens-source
separation, plus the additional contribution of the companion when it is
within planet_event_radius of the source. The source sits at the origin
(source_x = source_y = 0.0, line 54). -/
def current_magnification (N : ℕ) (S r ω : ℝ) (k : ℕ) : ℝ :=
  let u_lens := |lens_x_current N S k - 0.0|
  let main_magnification := calculate_magnification u_lens
  let u_planet_to_source :=
    Real.sqrt (((planet_display N S r ω k).1 - 0.0) ^ 2 +
               ((planet_display N S r ω k).2 - 0.0) ^ 2)
  let additional_magnification :=
    if u_planet_to_source < planet_event_radius then
      max 0.0 (max_planet_magnification_contribution *
        (1 - (u_planet_to_source / planet_event_radius) ^ 2))
    else 0.0
  main_magnification + additional_magnification

/-- One animation frame of update, src/main.py lines 72-123: computes the
sample (frame, current_magnification) that update appends to lc_times and
lc_magnifications. The division frame / (sim_total_frames - 1) on line 74
raises ZeroDivisionError exactly when sim_total_frames = 1; that failure is
modelled as none. -/
def update (N : ℕ) (S r ω : ℝ) (k : ℕ) : Option (ℕ × ℝ) :=
  if N = 1 then none
  else some (k, current_magnification N S r ω k)

/-- The saving writer loop over frames k, k+1, ... (fuel many), appending
each frame sample in order; a raised exception aborts the loop, recording
the frame index at which it occurred. During ani.save (src/main.py
line 144), FuncAnimation (line 137) invokes update on frames
0, 1, ..., sim_total_frames - 1 in order. -/
def runFrames (N : ℕ) (S r ω : ℝ) : ℕ → ℕ → List (ℕ × ℝ) × Option ℕ
  | _, 0 => ([], none)
  | k, fuel + 1 =>
    match update N S r ω k with
    | none => ([], some k)
    | some s =>
      let rest := runFrames N S r ω (k + 1) fuel
      (s :: rest.1, rest.2)

/-- The light-curve accumulation of create_and_display_animation,
src/main.py lines 26-158. FuncAnimation is constructed with no
init_func (line 137), so when ani.save (line 144) performs the initial
draw it invokes update once on the first frame of the frame sequence
(frame 0), and only then iterates update over frames 0 .. N-1; every
invocation appends its sample (lines 122-123), so the first sample is
recorded twice. With N = 0 the frame sequence is empty: the initial
draw appends nothing and the writer loop runs no frame. The first
component is the accumulated list of (time, magnification) samples
(lc_times zipped with lc_magnifications), the second is the frame index
of an uncaught exception, if any. -/
def create_and_display_animation (N : ℕ) (S r ω : ℝ) : List (ℕ × ℝ) × Option ℕ :=
  if N = 0 then ([], none)
  else
    match update N S r ω 0 with
    | none => ([], some 0)
    | some s0 =>
      let rest := runFrames N S r ω 0 N
      (s0 :: rest.1, rest.2)

end

/-! ## Helper lemmas -/

theorem effective_u_eq_max (u : ℝ) : effective_u u = max 0.01 u := by
  unfold effective_u
  rcases lt_or_le u 0.01 with h | h
  · rw [if_pos h, max_eq_left h.le]
  · rw [if_neg (not_lt.mpr h), max_eq_right h]

/-! ## C1 -/

/-- C1: for every real input u, calculate_magnification returns the
single-lens formula evaluated at u floored below at 0.01 (that is, at
max 0.01 u); in particular the result at u = 0 equals the result at
u = 0.01 exactly. -/
theorem calculate_magnification_clamped (u : ℝ) :
    calculate_magnification u =
      (max 0.01 u ^ 2 + 2) /
        (max 0.01 u * Real.sqrt (max 0.01 u ^ 2 + 4)) ∧
    calculate_magnification 0 = calculate_magnification 0.01 := by
  constructor
  · rw [calculate_magnification, effective_u_eq_max, magFormula]
  · rw [calculate_magnification, calculate_magnification]
    have h0 : effective_u 0 = 0.01 := by norm_num [effective_u]
    have h1 : effective_u 0.01 = 0.01 := by norm_num [effective_u]
    rw [h0, h1]

/-! ## C2 -/

/-- C2: for every separation d ≥ 0, influence radius R > 0 and peak
contribution P ≥ 0, the perturbation is exactly 0 when d ≥ R, equals
max 0 (P * (1 - (d/R)^2)) when d < R, equals exactly P at d = 0, and is
non-negative. -/
theorem perturbation_spec (d R P : ℝ) (hd : 0 ≤ d) (hR : 0 < R) (hP : 0 ≤ P) :
    (R ≤ d → perturbation d R P = 0) ∧
    (d < R → perturbation d R P = max 0 (P * (1 - (d / R) ^ 2))) ∧
    perturbation 0 R P = P ∧
    0 ≤ perturbation d R P := by
  refine ⟨fun h => ?_, fun h => ?_, ?_, ?_⟩
  · rw [perturbation, if_neg (not_lt.mpr h)]
    norm_num
  · rw [perturbation, if_pos h]
    norm_num
  · rw [perturbation, if_pos hR]
    have : ((0 : ℝ) / R) ^ 2 = 0 := by
      rw [zero_div]; norm_num
    rw [this]
    norm_num [max_eq_right hP]
  · unfold perturbation
    rcases lt_or_le d R with h | h
    · rw [if_pos h]
      exact le_max_of_le_left (by norm_num)
    · rw [if_neg (not_lt.mpr h)]
      norm_num

/-- Witness for C2 at d = 0.2, R = 0.5, P = 1. -/
theorem perturbation_spec_witness :
    (0 : ℝ) ≤ 0.2 ∧ (0 : ℝ) < 0.5 ∧ (0 : ℝ) ≤ 1 ∧
    ((0.5 : ℝ) ≤ 0.2 → perturbation 0.2 0.5 1 = 0) ∧
    ((0.2 : ℝ) < 0.5 → perturbation 0.2 0.5 1 = max 0 (1 * (1 - (0.2 / 0.5) ^ 2))) ∧
    perturbation 0 0.5 1 = 1 ∧
    (0 : ℝ) ≤ perturbation 0.2 0.5 1 :=
  ⟨by norm_num, by norm_num, by norm_num,
    (perturbation_spec 0.2 0.5 1 (by norm_num) (by norm_num) (by norm_num)).1,
    (perturbation_spec 0.2 0.5 1 (by norm_num) (by norm_num) (by norm_num)).2.1,
    (perturbation_spec 0.2 0.5 1 (by norm_num) (by norm_num) (by norm_num)).2.2.1,
    (perturbation_spec 0.2 0.5 1 (by norm_num) (by norm_num) (by norm_num)).2.2.2⟩

/-! ## Analysis of the magnification formula

Key identity: for u > 0, magFormula u ^ 2 = 1 + 4 / (u^4 + 4 u^2), which
yields positivity, the strict lower bound 1 and strict antitonicity
without calculus. -/

theorem effective_u_of_lt {u : ℝ} (h : u < 0.01) : effective_u u = 0.01 := if_pos h

theorem effective_u_of_le {u : ℝ} (h : 0.01 ≤ u) : effective_u u = u :=
  if_neg (not_lt.mpr h)

theorem effective_u_ge (u : ℝ) : 0.01 ≤ effective_u u := by
  rcases lt_or_le u 0.01 with h | h
  · rw [effective_u_of_lt h]
  · rw [effective_u_of_le h]; exact h

theorem magFormula_pos {u : ℝ} (hu : 0 < u) : 0 < magFormula u := by
  have h4 : (0 : ℝ) < u ^ 2 + 4 := by positivity
  exact div_pos (by positivity) (mul_pos hu (Real.sqrt_pos.mpr h4))

theorem magFormula_sq {u : ℝ} (hu : 0 < u) :
    magFormula u ^ 2 = 1 + 4 / (u ^ 4 + 4 * u ^ 2) := by
  have h4 : (0 : ℝ) ≤ u ^ 2 + 4 := by positivity
  have hs : Real.sqrt (u ^ 2 + 4) ^ 2 = u ^ 2 + 4 := Real.sq_sqrt h4
  have hs0 : Real.sqrt (u ^ 2 + 4) ≠ 0 :=
    ne_of_gt (Real.sqrt_pos.mpr (by positivity))
  have hu0 : u ≠ 0 := ne_of_gt hu
  have hD : u ^ 4 + 4 * u ^ 2 ≠ 0 := by positivity
  rw [magFormula, div_pow, mul_pow, hs]
  field_simp
  ring

theorem magFormula_gt_one {u : ℝ} (hu : 0 < u) : 1 < magFormula u := by
  have hpos := magFormula_pos hu
  have hsq : (1 : ℝ) ^ 2 < magFormula u ^ 2 := by
    rw [one_pow, magFormula_sq hu]
    have : (0 : ℝ) < 4 / (u ^ 4 + 4 * u ^ 2) := by positivity
    linarith
  exact lt_of_pow_lt_pow_left 2 hpos.le hsq

theorem magFormula_anti {a b : ℝ} (ha : 0 < a) (hab : a < b) :
    magFormula b < magFormula a := by
  have hb : 0 < b := ha.trans hab
  have hDa : (0 : ℝ) < a ^ 4 + 4 * a ^ 2 := by positivity
  have h2 : a ^ 2 < b ^ 2 := by nlinarith
  have h4sq : a ^ 2 * a ^ 2 < b ^ 2 * b ^ 2 := mul_self_lt_mul_self (sq_nonneg a) h2
  have hDlt : a ^ 4 + 4 * a ^ 2 < b ^ 4 + 4 * b ^ 2 := by nlinarith [h4sq, h2]
  have hsq : magFormula b ^ 2 < magFormula a ^ 2 := by
    rw [magFormula_sq ha, magFormula_sq hb]
    have h4 : (0 : ℝ) < 4 := by norm_num
    have := div_lt_div_of_pos_left h4 hDa hDlt
    linarith
  exact lt_of_pow_lt_pow_left 2 (magFormula_pos ha).le hsq

/-! ## C7 -/

/-- C7: for every u > 0 the magnification exceeds 1, and above the floor
(a ≥ 0.01, a < b) the magnification is strictly decreasing in the
separation. -/
theorem calculate_magnification_gt_one_anti (u a b : ℝ)
    (hu : 0 < u) (ha : 0.01 ≤ a) (hab : a < b) :
    1 < calculate_magnification u ∧
    calculate_magnification b < calculate_magnification a := by
  constructor
  · rw [calculate_magnification]
    exact magFormula_gt_one (lt_of_lt_of_le (by norm_num) (effective_u_ge u))
  · rw [calculate_magnification, calculate_magnification,
      effective_u_of_le ha, effective_u_of_le (ha.trans hab.le)]
    exact magFormula_anti (lt_of_lt_of_le (by norm_num) ha) hab

/-- Witness for C7 at u = 2, a = 1, b = 3. -/
theorem calculate_magnification_gt_one_anti_witness :
    (0 : ℝ) < 2 ∧ (0.01 : ℝ) ≤ 1 ∧ (1 : ℝ) < 3 ∧
    (1 < calculate_magnification 2 ∧
     calculate_magnification 3 < calculate_magnification 1) :=
  ⟨by norm_num, by norm_num, by norm_num,
    calculate_magnification_gt_one_anti 2 1 3 (by norm_num) (by norm_num) (by norm_num)⟩

/-! ## C10 -/

/-- C10: the magnification is total over all real inputs: the clamp
applies to every u below 0.01 (negatives included), the effective
separation is at least 0.01, the square-root argument is non-negative,
and the denominator is at least 0.02, in particular nonzero, so no
division by zero or square root of a negative number occurs. -/
theorem calculate_magnification_total (u : ℝ) :
    0.01 ≤ effective_u u ∧
    0 ≤ effective_u u ^ 2 + 4 ∧
    0.02 ≤ effective_u u * Real.sqrt (effective_u u ^ 2 + 4) ∧
    effective_u u * Real.sqrt (effective_u u ^ 2 + 4) ≠ 0 ∧
    calculate_magnification u =
      (effective_u u ^ 2 + 2) / (effective_u u * Real.sqrt (effective_u u ^ 2 + 4)) := by
  have he : 0.01 ≤ effective_u u := effective_u_ge u
  have he0 : (0 : ℝ) < effective_u u := lt_of_lt_of_le (by norm_num) he
  have h2 : (2 : ℝ) ≤ Real.sqrt (effective_u u ^ 2 + 4) := by
    have h4 : (4 : ℝ) ≤ effective_u u ^ 2 + 4 := by
      have := sq_nonneg (effective_u u); linarith
    calc (2 : ℝ) = Real.sqrt 4 := by
          rw [show (4 : ℝ) = 2 ^ 2 by norm_num, Real.sqrt_sq (by norm_num)]
    _ ≤ Real.sqrt (effective_u u ^ 2 + 4) := Real.sqrt_le_sqrt h4
  have hden : (0.02 : ℝ) ≤ effective_u u * Real.sqrt (effective_u u ^ 2 + 4) := by
    calc (0.02 : ℝ) = 0.01 * 2 := by norm_num
    _ ≤ effective_u u * Real.sqrt (effective_u u ^ 2 + 4) :=
        mul_le_mul he h2 (by norm_num) he0.le
  exact ⟨he, by positivity, hden, by positivity, rfl⟩

/-! ## C8

The spec asserts a peak value of approximately 101.5 at the floor
u = 0.01. The floor is indeed where the maximum is attained, but the
value there is approximately 100.0037, bracketed below between 100.003
and 100.004. -/

theorem sqrt_4_0001_lb : (2.000024 : ℝ) < Real.sqrt 4.0001 :=
  (Real.lt_sqrt (by norm_num)).mpr (by norm_num)

theorem sqrt_4_0001_ub : Real.sqrt 4.0001 < 2.000026 :=
  (Real.sqrt_lt' (by norm_num)).mpr (by norm_num)

theorem mag_at_floor_eq :
    calculate_magnification 0.01 = 2.0001 / (0.01 * Real.sqrt 4.0001) := by
  rw [calculate_magnification, effective_u_of_le (by norm_num), magFormula]
  norm_num

theorem mag_at_floor_bounds :
    100.003 < calculate_magnification 0.01 ∧ calculate_magnification 0.01 < 100.004 := by
  rw [mag_at_floor_eq]
  have hlb := sqrt_4_0001_lb
  have hub := sqrt_4_0001_ub
  have hpos : (0 : ℝ) < 0.01 * Real.sqrt 4.0001 := by positivity
  constructor
  · rw [lt_div_iff hpos]
    nlinarith
  · rw [div_lt_iff hpos]
    nlinarith

/-- C8 counterexample: the magnification at the floor u = 0.01 is more
than 1 away from the claimed value 101.5 (it is below 100.004), so the
peak is not approximately 101.5. -/
theorem mag_at_floor_not_near_101_5 :
    1 < |calculate_magnification 0.01 - 101.5| := by
  have h := mag_at_floor_bounds
  have hneg : calculate_magnification 0.01 - 101.5 < 0 := by linarith [h.2]
  rw [abs_of_neg hneg]
  linarith [h.2]

/-- C8 (amended): the magnification attains its maximum over all inputs
at the clamp floor u = 0.01, and the maximum value lies strictly between
100.003 and 100.004 (approximately 100.0037), not approximately 101.5. -/
theorem calculate_magnification_max_at_floor (u : ℝ) :
    calculate_magnification u ≤ calculate_magnification 0.01 ∧
    100.003 < calculate_magnification 0.01 ∧
    calculate_magnification 0.01 < 100.004 := by
  refine ⟨?_, mag_at_floor_bounds.1, mag_at_floor_bounds.2⟩
  rcases lt_or_le u 0.01 with h | h
  · rw [calculate_magnification, effective_u_of_lt h, calculate_magnification,
      effective_u_of_le (by norm_num)]
  · rcases eq_or_lt_of_le h with heq | hlt
    · rw [← heq]
    · rw [calculate_magnification, calculate_magnification,
        effective_u_of_le h, effective_u_of_le (by norm_num)]
      exact (magFormula_anti (by norm_num) hlt).le

/-! ## C3 -/

/-- C3: for a run of N ≥ 2 steps, the lens position at step k < N is
(-S/2 + (k/(N-1)) S, 0): exactly (-S/2, 0) at k = 0 and (S/2, 0) at
k = N-1 (lens y is 0 always), and the companion position is the lens
position plus the polar offset r (cos (k ω), sin (k ω)). -/
theorem positions_spec (N : ℕ) (S r ω : ℝ) (k : ℕ) (hN : 2 ≤ N) (hk : k < N) :
    lens_x_current N S k = -S / 2 + ((k : ℝ) / ((N : ℝ) - 1)) * S ∧
    lens_x_current N S 0 = -S / 2 ∧
    lens_x_current N S (N - 1) = S / 2 ∧
    planet_display N S r ω k =
      (lens_x_current N S k + r * Real.cos ((k : ℝ) * ω),
       0 + r * Real.sin ((k : ℝ) * ω)) := by
  have hN2 : (2 : ℝ) ≤ (N : ℝ) := by exact_mod_cast hN
  have hN1 : ((N : ℝ) - 1) ≠ 0 := by linarith
  refine ⟨rfl, ?_, ?_, ?_⟩
  · rw [lens_x_current]
    norm_num
  · rw [lens_x_current]
    have hcast : ((N - 1 : ℕ) : ℝ) = (N : ℝ) - 1 := by
      rw [Nat.cast_sub (by omega : 1 ≤ N)]
      norm_num
    rw [hcast, div_self hN1]
    ring
  · rw [planet_display]
    norm_num

/-- Witness for C3 at N = 2, k = 1, S = 10, r = 0.5, ω = 0.05. -/
theorem positions_spec_witness :
    2 ≤ 2 ∧ 1 < 2 ∧
    (lens_x_current 2 10 1 = -10 / 2 + ((1 : ℕ) : ℝ) / (((2 : ℕ) : ℝ) - 1) * 10 ∧
     lens_x_current 2 10 0 = -10 / 2 ∧
     lens_x_current 2 10 (2 - 1) = 10 / 2 ∧
     planet_display 2 10 0.5 0.05 1 =
       (lens_x_current 2 10 1 + 0.5 * Real.cos (((1 : ℕ) : ℝ) * 0.05),
        0 + 0.5 * Real.sin (((1 : ℕ) : ℝ) * 0.05))) :=
  ⟨by norm_num, by norm_num,
    positions_spec 2 10 0.5 0.05 1 (by norm_num) (by norm_num)⟩

/-! ## The run loop -/

theorem update_eq_some (N : ℕ) (S r ω : ℝ) (k : ℕ) (hN : N ≠ 1) :
    update N S r ω k = some (k, current_magnification N S r ω k) := by
  rw [update, if_neg hN]

theorem runFrames_eq_map (N : ℕ) (S r ω : ℝ) (hN : N ≠ 1) (fuel : ℕ) :
    ∀ k, runFrames N S r ω k fuel =
      ((List.range fuel).map fun i => (k + i, current_magnification N S r ω (k + i)),
       none) := by
  induction fuel with
  | zero => intro k; rfl
  | succ n ih =>
    intro k
    rw [runFrames, update_eq_some N S r ω k hN, ih (k + 1),
      List.range_succ_eq_map, List.map_cons, List.map_map]
    have hfun : (fun i => (k + 1 + i, current_magnification N S r ω (k + 1 + i)))
        = ((fun i => (k + i, current_magnification N S r ω (k + i))) ∘ Nat.succ) := by
      funext i
      simp only [Function.comp_apply]
      have h : k + 1 + i = k + Nat.succ i := by omega
      rw [h]
    rw [hfun]
    simp

theorem run_closed_form (N : ℕ) (S r ω : ℝ) (hN : 2 ≤ N) :
    create_and_display_animation N S r ω =
      ((0, current_magnification N S r ω 0) ::
        (List.range N).map fun k => (k, current_magnification N S r ω k), none) := by
  have hN1 : N ≠ 1 := by omega
  rw [create_and_display_animation, if_neg (by omega : N ≠ 0),
    update_eq_some N S r ω 0 hN1, runFrames_eq_map N S r ω hN1 N 0]
  simp

/-! ## C5

The spec expects a completed run of N steps to record exactly N samples
with times 0, 1, ..., N-1. The code does not: FuncAnimation is built
with no init_func (src/main.py line 137), so the initial draw performed
by ani.save (line 144) invokes update on frame 0 once before the writer
iterates frames 0 .. N-1, and every invocation appends (lines 122-123).
The recorded light curve therefore has N + 1 samples with times
0, 0, 1, ..., N-1: the first sample duplicated, so the length is not N
and the times are not strictly increasing. The spec clearly captures
the intent (one sample per frame; the x axis of the curve is drawn for
times 0 .. N, line 126) and the duplicated first sample is a slip. -/

/-- C5 (code bug), evaluated at the failing input N = 2 (S = 10,
r = 0.5, ω = 0.05): the completed run records 3 samples, not 2, and its
time values are 0, 0, 1 - the first sample is duplicated by the
init-draw invocation of update, so the times are not strictly
increasing and do not match the step indices. -/
theorem light_curve_duplicate_first_sample :
    (create_and_display_animation 2 10 0.5 0.05).1.length = 3 ∧
    (create_and_display_animation 2 10 0.5 0.05).1.map Prod.fst = [0, 0, 1] ∧
    ¬ List.Pairwise (· < ·) ((create_and_display_animation 2 10 0.5 0.05).1.map Prod.fst) := by
  have hfst : (create_and_display_animation 2 10 0.5 0.05).1.map Prod.fst = [0, 0, 1] := by
    rw [run_closed_form 2 10 0.5 0.05 (by norm_num)]
    simp [List.range_succ]
  refine ⟨?_, hfst, ?_⟩
  · rw [run_closed_form 2 10 0.5 0.05 (by norm_num)]
    simp
  · rw [hfst]
    decide

/-! ## C6 -/

/-- C6: the light curve of an uncancelled run is a pure function of the
configuration values alone: the accumulated sequence equals a closed
form determined by the configuration and the per-step-index sample
function (the init-draw sample at step 0 followed by one sample per
step index), so any two runs (however paced) with identical
configuration values produce identical sequences, sample for sample. -/
theorem light_curve_deterministic (N : ℕ) (S r ω : ℝ) (hN : 2 ≤ N) :
    (create_and_display_animation N S r ω).1 =
      (0, current_magnification N S r ω 0) ::
        (List.range N).map fun k => (k, current_magnification N S r ω k) := by
  rw [run_closed_form N S r ω hN]

/-- Witness for C6 at N = 2, S = 10, r = 0.5, ω = 0.05. -/
theorem light_curve_deterministic_witness :
    2 ≤ 2 ∧
    (create_and_display_animation 2 10 0.5 0.05).1 =
      (0, current_magnification 2 10 0.5 0.05 0) ::
        (List.range 2).map (fun k => (k, current_magnification 2 10 0.5 0.05 k)) :=
  ⟨by norm_num, light_curve_deterministic 2 10 0.5 0.05 (by norm_num)⟩

/-! ## C4 -/

theorem current_magnification_decomposed (N : ℕ) (S r ω : ℝ) (k : ℕ) :
    current_magnification N S r ω k =
      calculate_magnification |lens_x_current N S k| +
        perturbation
          (Real.sqrt ((planet_display N S r ω k).1 ^ 2 + (planet_display N S r ω k).2 ^ 2))
          (0.5 * RE) 1.0 := by
  rw [current_magnification, perturbation, planet_event_radius,
    max_planet_magnification_contribution]
  norm_num

/-- C4: every sample recorded in the light curve of a completed run
(the duplicated init-draw sample included) carries a step index below N
and a total magnification equal to the base magnification evaluated at
the absolute lens x position at that step (the source is fixed at the
origin) plus the perturbation contribution evaluated at the
companion-to-source Euclidean distance at that step, with influence
radius 0.5 * RE and peak contribution 1.0. -/
theorem sample_decomposition (N : ℕ) (S r ω : ℝ) (s : ℕ × ℝ) (hN : 2 ≤ N)
    (hs : s ∈ (create_and_display_animation N S r ω).1) :
    s.1 < N ∧
    s.2 = calculate_magnification |lens_x_current N S s.1| +
      perturbation
        (Real.sqrt ((planet_display N S r ω s.1).1 ^ 2 + (planet_display N S r ω s.1).2 ^ 2))
        (0.5 * RE) 1.0 := by
  rw [run_closed_form N S r ω hN] at hs
  have hform : ∀ k : ℕ, k < N → s = (k, current_magnification N S r ω k) →
      s.1 < N ∧
      s.2 = calculate_magnification |lens_x_current N S s.1| +
        perturbation
          (Real.sqrt ((planet_display N S r ω s.1).1 ^ 2 + (planet_display N S r ω s.1).2 ^ 2))
          (0.5 * RE) 1.0 := by
    rintro k hk rfl
    exact ⟨hk, current_magnification_decomposed N S r ω k⟩
  rcases List.mem_cons.mp hs with h0 | hmem
  · exact hform 0 (by omega) h0
  · rcases List.mem_map.mp hmem with ⟨k, hk, hks⟩
    exact hform k (List.mem_range.mp hk) hks.symm

/-- Witness for C4 at N = 2, S = 10, r = 0.5, ω = 0.05, with the
init-draw sample at step 0. -/
theorem sample_decomposition_witness :
    2 ≤ 2 ∧
    ((0 : ℕ), current_magnification 2 10 0.5 0.05 0) ∈
      (create_and_display_animation 2 10 0.5 0.05).1 ∧
    ((0 : ℕ) < 2 ∧
     current_magnification 2 10 0.5 0.05 0 =
       calculate_magnification |lens_x_current 2 10 0| +
         perturbation
           (Real.sqrt ((planet_display 2 10 0.5 0.05 0).1 ^ 2 +
                       (planet_display 2 10 0.5 0.05 0).2 ^ 2))
           (0.5 * RE) 1.0) := by
  have hmem : ((0 : ℕ), current_magnification 2 10 0.5 0.05 0) ∈
      (create_and_display_animation 2 10 0.5 0.05).1 := by
    rw [run_closed_form 2 10 0.5 0.05 (by norm_num)]
    exact List.mem_cons_self _ _
  exact ⟨by norm_num, hmem,
    sample_decomposition 2 10 0.5 0.05 _ (by norm_num) hmem⟩

/-! ## C9

The code performs no configuration validation. With sim_total_frames = 1
the driving loop does start: frame 0 is invoked, and the division
frame / (sim_total_frames - 1) on src/main.py line 74 raises
ZeroDivisionError inside that first step. No sample is appended, but the
run is aborted mid-step rather than rejected before any step executes. -/

/-- C9 counterexample: with the invalid frame count 1, the run is not
rejected up front: step 0 is attempted, and the recorded outcome is a
ZeroDivisionError raised at frame index 0 (second component some 0),
with an empty sample list. -/
theorem invalid_config_not_rejected :
    create_and_display_animation 1 10 0.5 0.05 = ([], some 0) := rfl

/-- C9 (amended): with an invalid total frame count (below 2), no sample
is ever computed or appended: with 0 frames no step runs at all, and
with 1 frame the single step aborts in the lens-position division before
reaching the append; there is however no up-front validation, the
failure occurs inside the first step. -/
theorem invalid_config_no_samples (N : ℕ) (S r ω : ℝ) (hN : N < 2) :
    (create_and_display_animation N S r ω).1 = [] := by
  interval_cases N
  · rfl
  · rfl

/-- Witness for the amended C9 at N = 1. -/
theorem invalid_config_no_samples_witness :
    1 < 2 ∧ (create_and_display_animation 1 10 0.5 0.05).1 = [] :=
  ⟨by norm_num, invalid_config_no_samples 1 10 0.5 0.05 (by norm_num)⟩
